import Mathlib

/-!
Verification of the network-task layer of the Octavia load-balancer
controller (`octavia/controller/worker/v1/tasks/network_tasks.py`).

The Python tasks are shallowly embedded as pure Lean functions.  Backend
drivers are modelled as records of functions supplied by the caller; each
task returns the list of backend calls it performs (its trace) together
with, where relevant, a flag saying whether the task raised an exception
that propagates to the workflow engine.  Python `None` is modelled by
`Option.none`, a Python falsy dict by the empty list, and an exception
raised by a backend call by an explicit outcome value.
-/

namespace Octavia

/-- A network id as stored on ports and NICs; `none` models Python `None`. -/
abbrev NetId := Option Nat

/-- `octavia.network.data_models.Interface`: a NIC, carrying a network id
and, once plugged, a port id. -/
structure Interface where
  network_id : NetId
  port_id : Option Nat
deriving DecidableEq, Repr

/-- `octavia.network.data_models.Delta`: the per-amphora reconciliation
value object. -/
structure Delta where
  amphora_id : Nat
  compute_id : Nat
  add_nics : List Interface
  delete_nics : List Interface
deriving DecidableEq, Repr

/-- A port as returned by `network_driver.get_port` (the field used by the
reconciler). -/
structure Port where
  network_id : NetId
deriving DecidableEq, Repr

/-- A subnet as returned by `network_driver.get_subnet`. -/
structure Subnet where
  network_id : NetId
deriving DecidableEq, Repr

/-- A pool member; only its (possibly null) subnet id matters here. -/
structure Member where
  subnet_id : Option Nat
deriving DecidableEq, Repr

/-- A pool of a load balancer. -/
structure Pool where
  members : List Member
deriving DecidableEq, Repr

/-- The VIP of a load balancer (fields used by the tasks under study). -/
structure Vip where
  subnet_id : Option Nat
  network_id : NetId
  ip_address : Nat
  qos_policy_id : Option Nat
deriving DecidableEq, Repr

/-- An amphora (fields used by the tasks under study). -/
structure Amphora where
  id : Nat
  compute_id : Nat
  vrrp_port_id : Nat
deriving DecidableEq, Repr

/-- A load balancer (fields used by the tasks under study). -/
structure LoadBalancer where
  id : Nat
  vip : Vip
  pools : List Pool
  amphorae : List Amphora
deriving DecidableEq, Repr

/-! ## Network State Reconciler (`CalculateAmphoraDelta.execute`) -/

/-- The backend driver operations consumed by `CalculateAmphoraDelta`. -/
structure ReconcilerDriver where
  get_port : Nat → Port
  get_subnet : Nat → Subnet
  get_plugged_networks : Nat → List Interface

/-- `constants.MANAGEMENT_NETWORK`, the availability-zone dict key. -/
def MANAGEMENT_NETWORK : String := "management_network"

/-- The availability-zone metadata dict; the empty list models both Python
`None` and the empty dict (both falsy, and `.get` is only reached on a
truthy dict). -/
abbrev AZMap := List (String × Nat)

/-- Python `availability_zone.get(key)`. -/
def azGet (az : AZMap) (k : String) : Option Nat :=
  az.lookup k

/-- `CONF.controller_worker` configuration consumed by the reconciler. -/
structure ControllerWorkerConf where
  amp_boot_network_list : List Nat

/-- The `management_nets` computation of `CalculateAmphoraDelta.execute`:
`[availability_zone.get(MANAGEMENT_NETWORK)] or CONF...amp_boot_network_list`
when the availability zone is truthy, the configured list otherwise. -/
def managementNets (az : AZMap) (conf : ControllerWorkerConf) : List NetId :=
  if az ≠ [] then
    let overrideList : List NetId := [azGet az MANAGEMENT_NETWORK]
    if overrideList ≠ [] then overrideList
    else conf.amp_boot_network_list.map some
  else conf.amp_boot_network_list.map some

/-- The member-derived network ids: for every pool, for every member with a
non-null subnet id, the network id of the member's subnet. -/
def memberNetworkIds (drv : ReconcilerDriver) (lb : LoadBalancer) : List NetId :=
  lb.pools.flatMap fun pool =>
    pool.members.filterMap fun m =>
      m.subnet_id.map fun sid => (drv.get_subnet sid).network_id

/-- The `desired_network_ids` set of `CalculateAmphoraDelta.execute`, as a
list (set semantics are recovered with `List.toFinset`): the VRRP port's
network, the management networks, and the member subnet networks. -/
def desiredNetworkIds (drv : ReconcilerDriver) (conf : ControllerWorkerConf)
    (lb : LoadBalancer) (amphora : Amphora) (az : AZMap)
    (vrrpPortArg : Option Port) : List NetId :=
  let vrrp_port := vrrpPortArg.getD (drv.get_port amphora.vrrp_port_id)
  vrrp_port.network_id :: (managementNets az conf ++ memberNetworkIds drv lb)

/-- Lookup in the `actual_network_nics` dict built by
`dict((nic.network_id, nic) for nic in nics)`: the last NIC with the given
network id wins, as in a Python dict comprehension. -/
def nicDictLookup (nics : List Interface) (k : NetId) : Option Interface :=
  nics.reverse.find? fun nic => nic.network_id == k

/-- The key list of the `actual_network_nics` dict. -/
def nicDictKeys (nics : List Interface) : List NetId :=
  (nics.map (·.network_id)).dedup

/-- `CalculateAmphoraDelta.execute`: computes the NIC delta for one
amphora.  Set iteration order is unspecified in Python; the delta lists are
built in dedup order, and all theorems are stated at the set level. -/
def calculateAmphoraDelta (drv : ReconcilerDriver) (conf : ControllerWorkerConf)
    (lb : LoadBalancer) (amphora : Amphora) (az : AZMap)
    (vrrpPortArg : Option Port) : Delta :=
  let desired := desiredNetworkIds drv conf lb amphora az vrrpPortArg
  let nics := drv.get_plugged_networks amphora.compute_id
  let actualKeys := nicDictKeys nics
  let del_ids := actualKeys.filter fun k => decide (k ∉ desired)
  let delete_nics := del_ids.filterMap (nicDictLookup nics)
  let add_ids := desired.dedup.filter fun k => decide (k ∉ actualKeys)
  let add_nics := add_ids.map fun k => Interface.mk k none
  Delta.mk amphora.id amphora.compute_id add_nics delete_nics

/-! ## Network Delta Application Steps -/

/-- The outcome of a backend `unplug_network` call: success, the benign
`base.NetworkNotFound`, or any other exception. -/
inductive UnplugResult
  | ok
  | notFound
  | otherError
deriving DecidableEq, Repr

/-- The outcome handed to a task's `revert`: either the prior `execute`
result or a taskflow `failure.Failure` marker. -/
inductive Outcome (α : Type)
  | failureMarker
  | success (val : α)
deriving DecidableEq, Repr

/-- The backend driver operations consumed by `PlugNetworks` and
`UnPlugNetworks`. -/
structure PlugDriver where
  unplug_network : Nat → NetId → UnplugResult

/-- The loop of `PlugNetworks.revert`: unplug each added NIC, swallowing
`base.NetworkNotFound` (`except ...: pass`); any other exception
propagates.  Returns the `(compute_id, network_id)` unplug calls made and
whether an exception escaped. -/
def plugNetworksRevertGo (drv : PlugDriver) (cid : Nat) :
    List Interface → List (Nat × NetId) × Bool
  | [] => ([], false)
  | nic :: rest =>
    match drv.unplug_network cid nic.network_id with
    | .otherError => ([(cid, nic.network_id)], true)
    | .notFound =>
      let r := plugNetworksRevertGo drv cid rest
      ((cid, nic.network_id) :: r.1, r.2)
    | .ok =>
      let r := plugNetworksRevertGo drv cid rest
      ((cid, nic.network_id) :: r.1, r.2)

/-- `PlugNetworks.revert`: a falsy delta (`none`) is a no-op; otherwise
unplug every `add_nics` entry on the amphora's compute instance. -/
def plugNetworksRevert (drv : PlugDriver) (amphora : Amphora)
    (delta : Option Delta) : List (Nat × NetId) × Bool :=
  match delta with
  | none => ([], false)
  | some d => plugNetworksRevertGo drv amphora.compute_id d.add_nics

/-- The loop of `UnPlugNetworks.execute`: unplug each `delete_nics` entry;
`base.NetworkNotFound` is logged and ignored, and any other exception is
logged and swallowed by the catch-all handler. -/
def unPlugNetworksGo (drv : PlugDriver) (cid : Nat) :
    List Interface → List (Nat × NetId) × Bool
  | [] => ([], false)
  | nic :: rest =>
    match drv.unplug_network cid nic.network_id with
    | .notFound =>
      let r := unPlugNetworksGo drv cid rest
      ((cid, nic.network_id) :: r.1, r.2)
    | .otherError =>
      let r := unPlugNetworksGo drv cid rest
      ((cid, nic.network_id) :: r.1, r.2)
    | .ok =>
      let r := unPlugNetworksGo drv cid rest
      ((cid, nic.network_id) :: r.1, r.2)

/-- `UnPlugNetworks.execute`: a falsy delta is a no-op; otherwise unplug
every `delete_nics` entry, never letting an exception escape. -/
def unPlugNetworksExecute (drv : PlugDriver) (amphora : Amphora)
    (delta : Option Delta) : List (Nat × NetId) × Bool :=
  match delta with
  | none => ([], false)
  | some d => unPlugNetworksGo drv amphora.compute_id d.delete_nics

/-! ## Combined delta application (`HandleNetworkDelta` / `HandleNetworkDeltas`) -/

/-- A fixed IP of a port as returned by `get_port`. -/
structure FixedIp where
  subnet_id : Option Nat
deriving DecidableEq, Repr

/-- A port record as returned by `network_driver.get_port`. -/
structure PortRec where
  id : Option Nat
  network_id : NetId
  fixed_ips : List FixedIp
deriving DecidableEq, Repr

/-- A fixed IP after the task annotated it with its resolved subnet
(`fixed_ip.subnet = get_subnet(fixed_ip.subnet_id)`); the subnet object is
modelled as the opaque token returned by the driver. -/
structure ResolvedFixedIp where
  subnet_id : Option Nat
  subnet : Nat
deriving DecidableEq, Repr

/-- A port after the task annotated it with its resolved network and
subnets; this is what `execute` records in `added_ports`. -/
structure ResolvedPort where
  id : Option Nat
  network_id : NetId
  network : Nat
  fixed_ips : List ResolvedFixedIp
deriving DecidableEq, Repr

/-- A backend call made by the combined delta-application tasks. -/
inductive NCall
  | plug (cid : Nat) (nid : NetId)
  | getPort (pid : Option Nat)
  | getNetwork (nid : NetId)
  | getSubnet (sid : Option Nat)
  | unplug (cid : Nat) (nid : NetId)
deriving DecidableEq, Repr

/-- The backend driver operations consumed by `HandleNetworkDelta` and
`HandleNetworkDeltas`; plugging and the getters are modelled as succeeding
(their failures abort either variant identically), unplugging may fail. -/
structure HandleDriver where
  plug_network : Nat → NetId → Interface
  get_port : Option Nat → PortRec
  get_network : NetId → Nat
  get_subnet : Option Nat → Nat
  unplug_network : Nat → NetId → UnplugResult

/-- The `add_nics` loop of `HandleNetworkDelta.execute`: plug each NIC,
fetch and resolve the resulting port, record it.  Returns the resolved
ports and the backend calls made. -/
def handleDeltaAddGo (drv : HandleDriver) (cid : Nat) :
    List Interface → List ResolvedPort × List NCall
  | [] => ([], [])
  | nic :: rest =>
    let itf := drv.plug_network cid nic.network_id
    let port := drv.get_port itf.port_id
    let network := drv.get_network port.network_id
    let rfips := port.fixed_ips.map fun f =>
      ResolvedFixedIp.mk f.subnet_id (drv.get_subnet f.subnet_id)
    let rp := ResolvedPort.mk port.id port.network_id network rfips
    let calls := NCall.plug cid nic.network_id :: NCall.getPort itf.port_id ::
      NCall.getNetwork port.network_id ::
      port.fixed_ips.map fun f => NCall.getSubnet f.subnet_id
    let r := handleDeltaAddGo drv cid rest
    (rp :: r.1, calls ++ r.2)

/-- The `delete_nics` loop of `HandleNetworkDelta.execute`: unplug each
NIC; `base.NetworkNotFound` is logged, any other exception is logged and
swallowed. -/
def handleDeltaDelGo (drv : HandleDriver) (cid : Nat) :
    List Interface → List NCall
  | [] => []
  | nic :: rest =>
    match drv.unplug_network cid nic.network_id with
    | .ok => NCall.unplug cid nic.network_id :: handleDeltaDelGo drv cid rest
    | .notFound => NCall.unplug cid nic.network_id :: handleDeltaDelGo drv cid rest
    | .otherError => NCall.unplug cid nic.network_id :: handleDeltaDelGo drv cid rest

/-- `HandleNetworkDelta.execute`: apply one amphora's delta and return the
`added_ports` dict `{amphora.id: [resolved ports]}` plus the call trace. -/
def handleNetworkDeltaExecute (drv : HandleDriver) (amphora : Amphora)
    (delta : Delta) : List (Nat × List ResolvedPort) × List NCall :=
  let add := handleDeltaAddGo drv delta.compute_id delta.add_nics
  let delCalls := handleDeltaDelGo drv delta.compute_id delta.delete_nics
  ([(amphora.id, add.1)], add.2 ++ delCalls)

/-- The `add_nics` loop of `HandleNetworkDeltas.execute` (textually
duplicated from the single-amphora task in the source). -/
def handleDeltasAddGo (drv : HandleDriver) (cid : Nat) :
    List Interface → List ResolvedPort × List NCall
  | [] => ([], [])
  | nic :: rest =>
    let itf := drv.plug_network cid nic.network_id
    let port := drv.get_port itf.port_id
    let network := drv.get_network port.network_id
    let rfips := port.fixed_ips.map fun f =>
      ResolvedFixedIp.mk f.subnet_id (drv.get_subnet f.subnet_id)
    let rp := ResolvedPort.mk port.id port.network_id network rfips
    let calls := NCall.plug cid nic.network_id :: NCall.getPort itf.port_id ::
      NCall.getNetwork port.network_id ::
      port.fixed_ips.map fun f => NCall.getSubnet f.subnet_id
    let r := handleDeltasAddGo drv cid rest
    (rp :: r.1, calls ++ r.2)

/-- The `delete_nics` loop of `HandleNetworkDeltas.execute` (textually
duplicated from the single-amphora task in the source). -/
def handleDeltasDelGo (drv : HandleDriver) (cid : Nat) :
    List Interface → List NCall
  | [] => []
  | nic :: rest =>
    match drv.unplug_network cid nic.network_id with
    | .ok => NCall.unplug cid nic.network_id :: handleDeltasDelGo drv cid rest
    | .notFound => NCall.unplug cid nic.network_id :: handleDeltasDelGo drv cid rest
    | .otherError => NCall.unplug cid nic.network_id :: handleDeltasDelGo drv cid rest

/-- `HandleNetworkDeltas.execute`: apply a mapping of deltas (modelled as
an association list in dict iteration order), building the `added_ports`
dict keyed by each map key. -/
def handleNetworkDeltasExecute (drv : HandleDriver) :
    List (Nat × Delta) → List (Nat × List ResolvedPort) × List NCall
  | [] => ([], [])
  | (aid, d) :: rest =>
    let add := handleDeltasAddGo drv d.compute_id d.add_nics
    let delCalls := handleDeltasDelGo drv d.compute_id d.delete_nics
    let r := handleNetworkDeltasExecute drv rest
    ((aid, add.1) :: r.1, (add.2 ++ delCalls) ++ r.2)

/-- The revert loop of `HandleNetworkDelta.revert`: unplug each added NIC;
the bare `except Exception: pass` swallows every error. -/
def handleDeltaRevertGo (drv : HandleDriver) (cid : Nat) :
    List Interface → List NCall
  | [] => []
  | nic :: rest =>
    match drv.unplug_network cid nic.network_id with
    | _ => NCall.unplug cid nic.network_id :: handleDeltaRevertGo drv cid rest

/-- `HandleNetworkDelta.revert`: no-op on a failure marker or a falsy
delta; otherwise unplug all `add_nics`, swallowing every error. -/
def handleNetworkDeltaRevert {α : Type} (drv : HandleDriver)
    (result : Outcome α) (delta : Option Delta) : List NCall × Bool :=
  match result with
  | .failureMarker => ([], false)
  | .success _ =>
    match delta with
    | none => ([], false)
    | some d => (handleDeltaRevertGo drv d.compute_id d.add_nics, false)

/-- The inner revert loop of `HandleNetworkDeltas.revert`: unplug each
added NIC, but only `base.NetworkNotFound` is swallowed — any other
exception propagates immediately. -/
def handleDeltasRevertInner (drv : HandleDriver) (cid : Nat) :
    List Interface → List NCall × Bool
  | [] => ([], false)
  | nic :: rest =>
    match drv.unplug_network cid nic.network_id with
    | .otherError => ([NCall.unplug cid nic.network_id], true)
    | .notFound =>
      let r := handleDeltasRevertInner drv cid rest
      (NCall.unplug cid nic.network_id :: r.1, r.2)
    | .ok =>
      let r := handleDeltasRevertInner drv cid rest
      (NCall.unplug cid nic.network_id :: r.1, r.2)

/-- The outer loop of `HandleNetworkDeltas.revert`: each iteration first
logs `delta.amphora_id`, so a falsy (`None`) delta raises
`AttributeError` right there — before the `if not delta: return` check
can run — and that exception propagates, aborting the whole revert;
otherwise the inner loop runs and a propagating unplug exception likewise
aborts the whole revert. -/
def handleDeltasRevertGo (drv : HandleDriver) :
    List (Nat × Option Delta) → List NCall × Bool
  | [] => ([], false)
  | (_, od) :: rest =>
    match od with
    | none => ([], true)
    | some d =>
      let r := handleDeltasRevertInner drv d.compute_id d.add_nics
      if r.2 then (r.1, true)
      else
        let r2 := handleDeltasRevertGo drv rest
        (r.1 ++ r2.1, r2.2)

/-- `HandleNetworkDeltas.revert`: no-op on a failure marker; otherwise the
outer per-amphora loop above. -/
def handleNetworkDeltasRevert {α : Type} (drv : HandleDriver)
    (result : Outcome α) (deltas : List (Nat × Option Delta)) :
    List NCall × Bool :=
  match result with
  | .failureMarker => ([], false)
  | .success _ => handleDeltasRevertGo drv deltas

/-! ## QoS Reconciliation Steps (`ApplyQos` / `ApplyQosAmphora`) -/

/-- A partial update request dict.  `vip_qos_key` is true when the dict
contains a `vip` entry that itself contains a `qos_policy_id` key, i.e. the
negation of Python's
`'vip' not in update_dict or 'qos_policy_id' not in update_dict['vip']`.
`none` models both Python `None` and the falsy empty dict. -/
structure UpdateDict where
  vip_qos_key : Bool
deriving DecidableEq, Repr

/-- Whether a possibly-absent update dict carries `vip.qos_policy_id`. -/
def hasVipQosKey : Option UpdateDict → Bool
  | none => false
  | some u => u.vip_qos_key

/-- An `apply_qos_on_port(qos_policy_id, vrrp_port_id)` backend call. -/
abbrev QosCall := Option Nat × Nat

/-- `ApplyQos._apply_qos_on_vrrp_ports`: when `amps_data` is falsy it
defaults to the load balancer's amphora collection, then applies the
policy id once per amphora via `ApplyQosAmphora._apply_qos_on_vrrp_port`. -/
def applyQosOnVrrpPorts (lb : LoadBalancer) (ampsData : List Amphora)
    (qosPolicyId : Option Nat) : List QosCall :=
  let amps := if ampsData = [] then lb.amphorae else ampsData
  amps.map fun a => (qosPolicyId, a.vrrp_port_id)

/-- `ApplyQos.execute`: skip when the Vip carries no policy id and
`not update_dict or ('vip' not in update_dict or 'qos_policy_id' not in
update_dict['vip'])`; otherwise apply the Vip's policy id to every target
amphora. -/
def applyQosExecute (lb : LoadBalancer) (ampsData : List Amphora)
    (updateDict : Option UpdateDict) : List QosCall :=
  let qosPolicyId := lb.vip.qos_policy_id
  if qosPolicyId = none ∧ (updateDict = none ∨ hasVipQosKey updateDict = false)
  then []
  else applyQosOnVrrpPorts lb ampsData qosPolicyId

/-- `ApplyQos.revert`: fetch the original load balancer fresh from
persistence (`task_utils.get_current_loadbalancer_from_db`, modelled by
`db`), and re-apply its policy id only when it differs from the requested
one. -/
def applyQosRevert (db : Nat → LoadBalancer) (lb : LoadBalancer)
    (ampsData : List Amphora) : List QosCall :=
  let request_qos_id := lb.vip.qos_policy_id
  let orig_qos_id := (db lb.id).vip.qos_policy_id
  if request_qos_id ≠ orig_qos_id then
    applyQosOnVrrpPorts lb ampsData orig_qos_id
  else []

/-- `ApplyQosAmphora.execute`: the skip condition reads
`not qos_policy_id and (update_dict and (...))` — note `update_dict and`,
not `not update_dict or` as in the fleet-wide task. -/
def applyQosAmphoraExecute (lb : LoadBalancer) (ampData : Amphora)
    (updateDict : Option UpdateDict) : List QosCall :=
  let qosPolicyId := lb.vip.qos_policy_id
  if qosPolicyId = none ∧ (updateDict ≠ none ∧ hasVipQosKey updateDict = false)
  then []
  else [(qosPolicyId, ampData.vrrp_port_id)]

/-- `ApplyQosAmphora.revert`: fetch the original policy id fresh from
persistence and re-apply it to the amphora's VRRP port only when it
differs from the requested one (the surrounding `try` logs and swallows
any error, and the apply itself runs with `is_revert=True`). -/
def applyQosAmphoraRevert (db : Nat → LoadBalancer) (lb : LoadBalancer)
    (ampData : Amphora) : List QosCall :=
  let request_qos_id := lb.vip.qos_policy_id
  let orig_qos_id := (db lb.id).vip.qos_policy_id
  if request_qos_id ≠ orig_qos_id then [(orig_qos_id, ampData.vrrp_port_id)]
  else []

/-! ## Retryable port deletion (`DeletePort.execute`) -/

/-- An observable event of `DeletePort.execute`: a progress report
(`attempt / max_attempt_number`), a `delete_port` backend call, or an
`admin_down_port` backend call (carrying whether that call failed — its
failure is swallowed either way). -/
inductive DPEv
  | progress (q : ℚ)
  | deleteCall
  | adminDownCall (failed : Bool)
deriving DecidableEq, Repr

/-- The tenacity retry loop around `DeletePort.execute`, attempt number
`k`, with `fuel = maxA + 1 - k` attempts remaining.  `df k` says whether
the backend `delete_port` raises on attempt `k`; `adf` whether the
best-effort `admin_down_port` raises.  Each attempt reports progress
`k / maxA` and calls `delete_port`; a failure before the final attempt
re-raises into tenacity (retry), a final-attempt failure either runs the
passive-failure path (admin-down once, swallow, succeed) or propagates
(`reraise=True`).  Returns the event trace and whether the task raised. -/
def deletePortGo (df : Nat → Bool) (adf : Bool) (passive : Bool)
    (maxA : Nat) : Nat → Nat → List DPEv × Bool
  | _, 0 => ([], false)
  | k, fuel + 1 =>
    let pre := [DPEv.progress ((k : ℚ) / (maxA : ℚ)), DPEv.deleteCall]
    if df k then
      if k ≠ maxA then
        let r := deletePortGo df adf passive maxA (k + 1) fuel
        (pre ++ r.1, r.2)
      else if passive then (pre ++ [DPEv.adminDownCall adf], false)
      else (pre, true)
    else (pre, false)

/-- `DeletePort.execute`: a null port id returns before any progress
report or backend call; otherwise the retry loop runs from attempt 1 with
a budget of `maxA` attempts (`stop_after_attempt(CONF.networking.max_retries)`). -/
def deletePortExecute (df : Nat → Bool) (adf : Bool) (passive : Bool)
    (maxA : Nat) (portId : Option Nat) : List DPEv × Bool :=
  match portId with
  | none => ([], false)
  | some _ => deletePortGo df adf passive maxA 1 maxA

/-! ## VIP base port creation (`CreateVIPBasePort`) -/

/-- `constants.AMP_BASE_PORT_PREFIX`, the fixed leading part of the
deterministic port name. -/
def ampBasePortNameStem : String := "octavia-lb-vrrp-"

/-- The argument record of a `create_port` backend call. -/
structure CreatePortArgs where
  network_id : NetId
  name : String
  fixed_ips : List (Option Nat)
  secondary_ips : List Nat
  security_group_ids : List Nat
  qos_policy_id : Option Nat
deriving DecidableEq, Repr

/-- A port returned by `create_port` (the field the revert uses). -/
structure PortOut where
  id : Option Nat
deriving DecidableEq, Repr

/-- The outcome of a backend `delete_port` call in the revert. -/
inductive DeleteResult
  | ok
  | error
deriving DecidableEq, Repr

/-- The backend driver operations consumed by `CreateVIPBasePort`. -/
structure CreateDriver where
  create_port : CreatePortArgs → PortOut
  delete_port : Option Nat → DeleteResult

/-- The body of `CreateVIPBasePort.execute`: build the deterministic port
name from the fixed stem plus the amphora id, and create the port with the
VIP's subnet as sole fixed IP, the VIP's address as secondary IP, the
optional security group and the VIP's QoS policy.  Returns the
`create_port` argument record and the created port. -/
def createVIPBasePortExecute (drv : CreateDriver) (vip : Vip)
    (vipSgId : Option Nat) (amphoraId : String) : CreatePortArgs × PortOut :=
  let port_name := ampBasePortNameStem ++ amphoraId
  let fixed_ips := [vip.subnet_id]
  let sg_id := match vipSgId with
    | some s => [s]
    | none => []
  let args := CreatePortArgs.mk vip.network_id port_name fixed_ips
    [vip.ip_address] sg_id vip.qos_policy_id
  (args, drv.create_port args)

/-- The revert loop of `CreateVIPBasePort.revert`: delete each port of the
forward result; the single `try` wraps the whole loop, so the first
failing delete ends the loop, logged only.  Returns the `delete_port`
calls made and whether an error was encountered (and swallowed). -/
def createVIPBasePortRevertGo (drv : CreateDriver) :
    List PortOut → List (Option Nat) × Bool
  | [] => ([], false)
  | p :: rest =>
    match drv.delete_port p.id with
    | .ok =>
      let r := createVIPBasePortRevertGo drv rest
      (p.id :: r.1, r.2)
    | .error => ([p.id], true)

/-- `CreateVIPBasePort.revert`: a failure marker is a no-op; otherwise
delete every port of the forward result, logging (never raising) on
error.  Returns the `delete_port` calls and whether the revert raised
(always `false`). -/
def createVIPBasePortRevert (drv : CreateDriver)
    (result : Outcome (List PortOut)) : List (Option Nat) × Bool :=
  match result with
  | .failureMarker => ([], false)
  | .success ports => ((createVIPBasePortRevertGo drv ports).1, false)

/-! ## Theorems -/

/-- C9: when an availability-zone override supplies a management network,
the desired management-network set equals exactly the override's network
and contains no entry of the configured management-network list (override
replaces, never merges). -/
theorem managementNets_az_override (az : AZMap) (conf : ControllerWorkerConf)
    (N2 : Nat) (haz : az ≠ []) (hget : azGet az MANAGEMENT_NETWORK = some N2) :
    managementNets az conf = [some N2]
    ∧ ∀ n ∈ conf.amp_boot_network_list, n ≠ N2 →
        some n ∉ managementNets az conf := by
  have h1 : managementNets az conf = [azGet az MANAGEMENT_NETWORK] := by
    unfold managementNets
    simp [haz]
  refine ⟨by rw [h1, hget], fun n _ hne => ?_⟩
  rw [h1, hget]
  simp [hne]

/-- Witness for C9: configured list `[1]`, availability-zone override `2`:
the management networks are exactly `[some 2]`. -/
theorem managementNets_az_override_witness :
    (([(MANAGEMENT_NETWORK, 2)] : AZMap) ≠ []) ∧
    managementNets [(MANAGEMENT_NETWORK, 2)] ⟨[1]⟩ = [some 2] :=
  ⟨by simp, (managementNets_az_override [(MANAGEMENT_NETWORK, 2)] ⟨[1]⟩ 2
      (by simp) (by decide)).1⟩

/-- C10: whenever a non-empty availability-zone mapping is supplied, the
management networks are exactly the single-element list holding the
mapping's (possibly absent) management-network lookup — the configured
list is unreachable — and when the lookup is absent the desired
network-id set contains the null network id. -/
theorem managementNets_az_truthy (az : AZMap) (conf : ControllerWorkerConf)
    (drv : ReconcilerDriver) (lb : LoadBalancer) (amphora : Amphora)
    (vp : Option Port) (haz : az ≠ []) :
    managementNets az conf = [azGet az MANAGEMENT_NETWORK]
    ∧ (azGet az MANAGEMENT_NETWORK = none →
        none ∈ desiredNetworkIds drv conf lb amphora az vp) := by
  have h1 : managementNets az conf = [azGet az MANAGEMENT_NETWORK] := by
    unfold managementNets
    simp [haz]
  refine ⟨h1, fun hnone => ?_⟩
  unfold desiredNetworkIds
  simp [h1, hnone]

/-- Witness for C10: the mapping `[("zone", 1)]` is non-empty but has no
management-network entry; the desired network-id set contains `none`. -/
theorem managementNets_az_truthy_witness :
    (([(("zone" : String), 1)] : AZMap) ≠ []) ∧
    none ∈ desiredNetworkIds
      ⟨fun _ => ⟨some 3⟩, fun _ => ⟨some 4⟩, fun _ => []⟩ ⟨[7]⟩
      ⟨1, ⟨none, none, 0, none⟩, [], []⟩ ⟨1, 1, 1⟩ [(("zone" : String), 1)] none :=
  ⟨by simp, (managementNets_az_truthy [(("zone" : String), 1)] ⟨[7]⟩
      ⟨fun _ => ⟨some 3⟩, fun _ => ⟨some 4⟩, fun _ => []⟩
      ⟨1, ⟨none, none, 0, none⟩, [], []⟩ ⟨1, 1, 1⟩ none (by simp)).2 (by decide)⟩

/-- C6: the forward action of `UnPlugNetworks` never raises: a null delta
is a no-op, and otherwise every `delete_nics` entry is unplugged with both
not-found and any other error swallowed. -/
theorem unPlugNetworks_execute_spec (drv : PlugDriver) (amphora : Amphora) :
    unPlugNetworksExecute drv amphora none = ([], false)
    ∧ ∀ d : Delta,
        unPlugNetworksExecute drv amphora (some d)
          = (d.delete_nics.map fun nic => (amphora.compute_id, nic.network_id),
             false) := by
  have hgo : ∀ (l : List Interface) (cid : Nat),
      unPlugNetworksGo drv cid l
        = (l.map fun nic => (cid, nic.network_id), false) := by
    intro l cid
    induction l with
    | nil => rfl
    | cons nic rest ih =>
      cases h : drv.unplug_network cid nic.network_id <;>
        simp [unPlugNetworksGo, h, ih]
  exact ⟨rfl, fun d => hgo d.delete_nics amphora.compute_id⟩

/-- C5: both QoS reverts fetch the originally-persisted policy id fresh
from persistence; if it equals the requested id the revert performs zero
apply calls, otherwise it re-applies exactly the persisted id. -/
theorem applyQos_revert_spec (db : Nat → LoadBalancer) (lb : LoadBalancer)
    (ampsData : List Amphora) (ampData : Amphora) :
    (lb.vip.qos_policy_id = (db lb.id).vip.qos_policy_id →
        applyQosRevert db lb ampsData = []
        ∧ applyQosAmphoraRevert db lb ampData = [])
    ∧ (lb.vip.qos_policy_id ≠ (db lb.id).vip.qos_policy_id →
        applyQosRevert db lb ampsData
            = applyQosOnVrrpPorts lb ampsData ((db lb.id).vip.qos_policy_id)
        ∧ (∀ c ∈ applyQosRevert db lb ampsData,
            c.1 = (db lb.id).vip.qos_policy_id)
        ∧ applyQosAmphoraRevert db lb ampData
            = [((db lb.id).vip.qos_policy_id, ampData.vrrp_port_id)]) := by
  constructor
  · intro heq
    constructor <;> simp [applyQosRevert, applyQosAmphoraRevert, heq]
  · intro hne
    refine ⟨by simp [applyQosRevert, hne], fun c hc => ?_,
      by simp [applyQosAmphoraRevert, hne]⟩
    simp [applyQosRevert, hne, applyQosOnVrrpPorts] at hc
    obtain ⟨a, _, h⟩ := hc
    rw [← h]

/-- Witness for C5: with the persisted policy id equal to the requested
one, both reverts perform zero apply calls. -/
theorem applyQos_revert_spec_witness :
    applyQosRevert (fun _ => ⟨5, ⟨none, none, 0, some 9⟩, [], []⟩)
      ⟨5, ⟨none, none, 0, some 9⟩, [], []⟩ [] = []
    ∧ applyQosAmphoraRevert (fun _ => ⟨5, ⟨none, none, 0, some 9⟩, [], []⟩)
      ⟨5, ⟨none, none, 0, some 9⟩, [], []⟩ ⟨1, 1, 3⟩ = [] :=
  (applyQos_revert_spec (fun _ => ⟨5, ⟨none, none, 0, some 9⟩, [], []⟩)
    ⟨5, ⟨none, none, 0, some 9⟩, [], []⟩ [] ⟨1, 1, 3⟩).1 rfl

/-- C2 counterexample: `PlugNetworks.revert` swallows only
`base.NetworkNotFound`; with a delta holding one added NIC and a backend
whose unplug raises any other error, the revert raises — refuting "any
other error from unplugging is also swallowed, and it never raises". -/
theorem plugNetworksRevert_raises_counterexample :
    (plugNetworksRevert ⟨fun _ _ => .otherError⟩ ⟨1, 2, 3⟩
      (some ⟨1, 2, [⟨some 5, none⟩], []⟩)).2 = true := by
  rfl

/-- C2 amended: the compensation of `PlugNetworks` is a no-op when the
delta is null; otherwise it unplugs the networks listed in `add_nics` in
order, swallowing not-found errors, but any other error from unplugging
stops the iteration and propagates (the revert raises). -/
theorem plugNetworksRevert_spec (drv : PlugDriver) (amphora : Amphora)
    (d : Delta) :
    plugNetworksRevert drv amphora none = ([], false)
    ∧ ((∀ nic ∈ d.add_nics,
          drv.unplug_network amphora.compute_id nic.network_id ≠ .otherError) →
        plugNetworksRevert drv amphora (some d)
          = (d.add_nics.map fun nic => (amphora.compute_id, nic.network_id),
             false))
    ∧ (∀ pre nic post, d.add_nics = pre ++ nic :: post →
        (∀ m ∈ pre,
          drv.unplug_network amphora.compute_id m.network_id ≠ .otherError) →
        drv.unplug_network amphora.compute_id nic.network_id = .otherError →
        plugNetworksRevert drv amphora (some d)
          = ((pre ++ [nic]).map fun m => (amphora.compute_id, m.network_id),
             true)) := by
  have hok : ∀ (l : List Interface),
      (∀ nic ∈ l,
        drv.unplug_network amphora.compute_id nic.network_id ≠ .otherError) →
      plugNetworksRevertGo drv amphora.compute_id l
        = (l.map fun nic => (amphora.compute_id, nic.network_id), false) := by
    intro l
    induction l with
    | nil => intro _; rfl
    | cons nic rest ih =>
      intro h
      have hnic := h nic (by simp)
      have hrest := ih fun m hm => h m (by simp [hm])
      cases hu : drv.unplug_network amphora.compute_id nic.network_id
      · simp [plugNetworksRevertGo, hu, hrest]
      · simp [plugNetworksRevertGo, hu, hrest]
      · exact absurd hu hnic
  refine ⟨rfl, fun h => hok d.add_nics h, fun pre nic post hsplit hpre hnic => ?_⟩
  show plugNetworksRevertGo drv amphora.compute_id d.add_nics = _
  rw [hsplit]
  clear hsplit
  induction pre with
  | nil => simp [plugNetworksRevertGo, hnic]
  | cons m rest ih =>
    have hm := hpre m (by simp)
    have hrest := ih fun x hx => hpre x (by simp [hx])
    cases hu : drv.unplug_network amphora.compute_id m.network_id
    · simp [plugNetworksRevertGo, hu, hrest]
    · simp [plugNetworksRevertGo, hu, hrest]
    · exact absurd hu hm

/-- Witness for C2 amended: a backend whose unplug always succeeds, a
delta with one added NIC: the revert unplugs exactly that network and
does not raise. -/
theorem plugNetworksRevert_spec_witness :
    plugNetworksRevert ⟨fun _ _ => .ok⟩ ⟨1, 2, 3⟩
      (some ⟨1, 2, [⟨some 5, none⟩], []⟩) = ([(2, some 5)], false) :=
  (plugNetworksRevert_spec ⟨fun _ _ => .ok⟩ ⟨1, 2, 3⟩
    ⟨1, 2, [⟨some 5, none⟩], []⟩).2.1 (by decide)

/-- C4 counterexample: with a load balancer whose Vip carries no QoS
policy id and no update dict supplied, `ApplyQosAmphora.execute` still
performs one backend apply call (carrying the null policy id) — refuting
"the forward action performs zero backend calls (skip)" for the
single-amphora step. -/
theorem applyQosAmphora_skip_counterexample :
    applyQosAmphoraExecute ⟨1, ⟨none, none, 0, none⟩, [], []⟩ ⟨1, 1, 7⟩ none
        = [(none, 7)]
    ∧ applyQosAmphoraExecute ⟨1, ⟨none, none, 0, none⟩, [], []⟩ ⟨1, 1, 7⟩ none
        ≠ [] := by
  constructor <;> decide

/-- C4 amended: the fleet-wide step skips (zero backend calls) when no
policy id is resolvable from the Vip and none is supplied via a partial
update dict, and applies once per target amphora (defaulting to the load
balancer's full amphora collection) when a policy id is present; the
single-amphora step skips only when no policy id is resolvable and a
truthy update dict lacking `vip.qos_policy_id` was supplied — with no
update dict at all it performs one apply call carrying the null policy id,
and with a policy id present it applies it once. -/
theorem applyQos_execute_spec (lb : LoadBalancer) (ampsData : List Amphora)
    (ud : Option UpdateDict) (amp : Amphora) :
    (lb.vip.qos_policy_id = none → (ud = none ∨ hasVipQosKey ud = false) →
        applyQosExecute lb ampsData ud = [])
    ∧ (∀ q, lb.vip.qos_policy_id = some q →
        applyQosExecute lb ampsData ud
          = (if ampsData = [] then lb.amphorae else ampsData).map
              fun a => (some q, a.vrrp_port_id))
    ∧ (lb.vip.qos_policy_id = none →
        applyQosAmphoraExecute lb amp none = [(none, amp.vrrp_port_id)])
    ∧ (∀ u : UpdateDict, lb.vip.qos_policy_id = none → u.vip_qos_key = false →
        applyQosAmphoraExecute lb amp (some u) = [])
    ∧ (∀ q, lb.vip.qos_policy_id = some q →
        applyQosAmphoraExecute lb amp ud = [(some q, amp.vrrp_port_id)]) := by
  refine ⟨fun hq hu => ?_, fun q hq => ?_, fun hq => ?_, fun u hq hu => ?_,
    fun q hq => ?_⟩
  · simp [applyQosExecute, hq, hu]
  · simp [applyQosExecute, hq, applyQosOnVrrpPorts]
  · simp [applyQosAmphoraExecute, hq, hasVipQosKey]
  · simp [applyQosAmphoraExecute, hq, hasVipQosKey, hu]
  · simp [applyQosAmphoraExecute, hq]

/-- Witness for C4 amended: Vip with no policy id and no update dict: the
fleet-wide step performs zero calls even with a non-empty amphora list. -/
theorem applyQos_execute_spec_witness :
    applyQosExecute ⟨1, ⟨none, none, 0, none⟩, [], [⟨1, 1, 7⟩]⟩ [⟨1, 1, 7⟩]
      none = [] :=
  (applyQos_execute_spec ⟨1, ⟨none, none, 0, none⟩, [], [⟨1, 1, 7⟩]⟩
    [⟨1, 1, 7⟩] none ⟨1, 1, 7⟩).1 rfl (Or.inl rfl)

/-- C7: `CreateVIPBasePort` names the port deterministically as the fixed
stem plus the amphora id; its compensation is a no-op on a failure marker,
never raises, and — when the backend deletes succeed — deletes every port
returned by the forward action. -/
theorem createVIPBasePort_spec (drv : CreateDriver) (vip : Vip)
    (vipSgId : Option Nat) (amphoraId : String) (ports : List PortOut) :
    (createVIPBasePortExecute drv vip vipSgId amphoraId).1.name
        = ampBasePortNameStem ++ amphoraId
    ∧ createVIPBasePortRevert drv .failureMarker = ([], false)
    ∧ (createVIPBasePortRevert drv (.success ports)).2 = false
    ∧ ((∀ p ∈ ports, drv.delete_port p.id = .ok) →
        (createVIPBasePortRevert drv (.success ports)).1
          = ports.map (·.id)) := by
  refine ⟨rfl, rfl, rfl, fun h => ?_⟩
  show (createVIPBasePortRevertGo drv ports).1 = _
  induction ports with
  | nil => rfl
  | cons p rest ih =>
    have hp := h p (by simp)
    have hrest := ih fun x hx => h x (by simp [hx])
    simp [createVIPBasePortRevertGo, hp, hrest]

/-- Witness for C7: a backend whose deletes succeed and a two-port forward
result: the compensation deletes both ports. -/
theorem createVIPBasePort_spec_witness :
    (createVIPBasePortRevert ⟨fun _ => ⟨some 0⟩, fun _ => .ok⟩
      (.success [⟨some 4⟩, ⟨some 6⟩])).1 = [some 4, some 6] :=
  (createVIPBasePort_spec ⟨fun _ => ⟨some 0⟩, fun _ => .ok⟩
    ⟨none, none, 0, none⟩ none "a" [⟨some 4⟩, ⟨some 6⟩]).2.2.2 (by decide)

/-- Looking up a key that is present among the NIC network ids succeeds
and returns one of the original NIC records, keyed correctly. -/
theorem nicDictLookup_spec (nics : List Interface) (k : NetId)
    (hk : k ∈ nics.map (·.network_id)) :
    ∃ nic, nicDictLookup nics k = some nic ∧ nic.network_id = k ∧ nic ∈ nics := by
  have hex : ∃ x, x ∈ nics.reverse ∧ (x.network_id == k) = true := by
    obtain ⟨nic, hmem, hid⟩ := List.mem_map.mp hk
    exact ⟨nic, List.mem_reverse.mpr hmem, by simp [hid]⟩
  have hsome : (nics.reverse.find? fun nic => nic.network_id == k).isSome := by
    rw [List.find?_isSome]
    obtain ⟨x, hx1, hx2⟩ := hex
    exact ⟨x, hx1, hx2⟩
  obtain ⟨nic, hfind⟩ := Option.isSome_iff_exists.mp hsome
  refine ⟨nic, hfind, ?_, ?_⟩
  · have := List.find?_some hfind
    simpa using this
  · have := List.mem_of_find?_eq_some hfind
    simpa using this

/-- Materializing a list of present keys through the NIC dict yields
records whose network ids are exactly those keys, all drawn from the
original NIC list. -/
theorem filterMap_nicDictLookup (nics : List Interface) (ids : List NetId)
    (h : ∀ k ∈ ids, k ∈ nics.map (·.network_id)) :
    ((ids.filterMap (nicDictLookup nics)).map (·.network_id)) = ids
    ∧ ∀ nic ∈ ids.filterMap (nicDictLookup nics), nic ∈ nics := by
  induction ids with
  | nil => simp
  | cons k rest ih =>
    obtain ⟨nic, hfind, hid, hmem⟩ := nicDictLookup_spec nics k (h k (by simp))
    obtain ⟨ih1, ih2⟩ := ih fun x hx => h x (by simp [hx])
    constructor
    · simp [List.filterMap_cons, hfind, hid, ih1]
    · intro x hx
      rw [List.filterMap_cons, hfind] at hx
      rcases List.mem_cons.mp hx with h1 | h2
      · subst h1; exact hmem
      · exact ih2 x h2

/-- C1: for every amphora reconciliation, with `D` the desired network-id
set and `A` the network-id set of currently plugged NICs, the produced
Delta satisfies `add = D \ A` (each added NIC a fresh Interface carrying
only its network id), `delete = A \ D` (each deleted NIC the full existing
Interface record), and the two network-id sets are disjoint. -/
theorem calculateAmphoraDelta_spec (drv : ReconcilerDriver)
    (conf : ControllerWorkerConf) (lb : LoadBalancer) (amphora : Amphora)
    (az : AZMap) (vp : Option Port) :
    (((calculateAmphoraDelta drv conf lb amphora az vp).add_nics.map
        (·.network_id)).toFinset
      = (desiredNetworkIds drv conf lb amphora az vp).toFinset \
        ((drv.get_plugged_networks amphora.compute_id).map
          (·.network_id)).toFinset)
    ∧ (∀ i ∈ (calculateAmphoraDelta drv conf lb amphora az vp).add_nics,
        i.port_id = none)
    ∧ (((calculateAmphoraDelta drv conf lb amphora az vp).delete_nics.map
        (·.network_id)).toFinset
      = ((drv.get_plugged_networks amphora.compute_id).map
          (·.network_id)).toFinset \
        (desiredNetworkIds drv conf lb amphora az vp).toFinset)
    ∧ (∀ nic ∈ (calculateAmphoraDelta drv conf lb amphora az vp).delete_nics,
        nic ∈ drv.get_plugged_networks amphora.compute_id)
    ∧ Disjoint
        (((calculateAmphoraDelta drv conf lb amphora az vp).add_nics.map
          (·.network_id)).toFinset)
        (((calculateAmphoraDelta drv conf lb amphora az vp).delete_nics.map
          (·.network_id)).toFinset) := by
  have hadd : (calculateAmphoraDelta drv conf lb amphora az vp).add_nics
      = ((desiredNetworkIds drv conf lb amphora az vp).dedup.filter fun k =>
          decide (k ∉ nicDictKeys (drv.get_plugged_networks amphora.compute_id))).map
          fun k => Interface.mk k none := rfl
  have hdel : (calculateAmphoraDelta drv conf lb amphora az vp).delete_nics
      = ((nicDictKeys (drv.get_plugged_networks amphora.compute_id)).filter
          fun k => decide (k ∉ desiredNetworkIds drv conf lb amphora az vp)).filterMap
          (nicDictLookup (drv.get_plugged_networks amphora.compute_id)) := rfl
  have hdelkeys : ∀ k ∈ (nicDictKeys (drv.get_plugged_networks amphora.compute_id)).filter
      (fun k => decide (k ∉ desiredNetworkIds drv conf lb amphora az vp)),
      k ∈ (drv.get_plugged_networks amphora.compute_id).map (·.network_id) := by
    intro k hk
    have := (List.mem_filter.mp hk).1
    simpa [nicDictKeys, List.mem_dedup] using this
  obtain ⟨hdelmap, hdelmem⟩ := filterMap_nicDictLookup
    (drv.get_plugged_networks amphora.compute_id) _ hdelkeys
  have haddset : (((calculateAmphoraDelta drv conf lb amphora az vp).add_nics.map
      (·.network_id)).toFinset
      = (desiredNetworkIds drv conf lb amphora az vp).toFinset \
        ((drv.get_plugged_networks amphora.compute_id).map
          (·.network_id)).toFinset) := by
    rw [hadd, List.map_map]
    ext a
    simp [List.mem_toFinset, List.mem_filter, List.mem_dedup, Finset.mem_sdiff,
      nicDictKeys, Function.comp]
  have hdelset : (((calculateAmphoraDelta drv conf lb amphora az vp).delete_nics.map
      (·.network_id)).toFinset
      = ((drv.get_plugged_networks amphora.compute_id).map
          (·.network_id)).toFinset \
        (desiredNetworkIds drv conf lb amphora az vp).toFinset) := by
    rw [hdel, hdelmap]
    ext a
    simp [List.mem_toFinset, List.mem_filter, List.mem_dedup, Finset.mem_sdiff,
      nicDictKeys]
  refine ⟨haddset, ?_, hdelset, ?_, ?_⟩
  · intro i hi
    rw [hadd] at hi
    obtain ⟨k, _, rfl⟩ := List.mem_map.mp hi
    rfl
  · intro nic hnic
    rw [hdel] at hnic
    exact hdelmem nic hnic
  · rw [haddset, hdelset]
    exact disjoint_sdiff_sdiff

/-- The duplicated add loops of the single- and multi-amphora combined
tasks compute the same ports and calls. -/
theorem handleDeltasAddGo_eq (drv : HandleDriver) (cid : Nat)
    (l : List Interface) : handleDeltasAddGo drv cid l = handleDeltaAddGo drv cid l := by
  induction l with
  | nil => rfl
  | cons nic rest ih =>
    simp [handleDeltasAddGo, handleDeltaAddGo, ih]

/-- The duplicated delete loops of the single- and multi-amphora combined
tasks make the same calls. -/
theorem handleDeltasDelGo_eq (drv : HandleDriver) (cid : Nat)
    (l : List Interface) : handleDeltasDelGo drv cid l = handleDeltaDelGo drv cid l := by
  induction l with
  | nil => rfl
  | cons nic rest ih =>
    cases h : drv.unplug_network cid nic.network_id <;>
      simp [handleDeltasDelGo, handleDeltaDelGo, h, ih]

/-- C8 counterexample: on a delta with one added NIC and a backend whose
unplug raises a non-not-found error, the single-amphora compensation
swallows the error while the multi-amphora compensation raises — the two
variants do not have identical per-amphora compensation semantics. -/
theorem handleNetworkDeltas_revert_counterexample :
    (handleNetworkDeltaRevert (α := Unit)
        ⟨fun _ _ => ⟨none, none⟩, fun _ => ⟨none, none, []⟩, fun _ => 0,
         fun _ => 0, fun _ _ => .otherError⟩
        (.success ()) (some ⟨1, 2, [⟨some 5, none⟩], []⟩)).2 = false
    ∧ (handleNetworkDeltasRevert (α := Unit)
        ⟨fun _ _ => ⟨none, none⟩, fun _ => ⟨none, none, []⟩, fun _ => 0,
         fun _ => 0, fun _ _ => .otherError⟩
        (.success ()) [(1, some ⟨1, 2, [⟨some 5, none⟩], []⟩)]).2 = true := by
  constructor <;> rfl

/-- C8 amended: the forward actions do have identical per-amphora
semantics — the multi-amphora execute processes each map entry exactly as
the single-amphora execute processes that entry's delta, concatenating
result entries and backend calls.  The compensations agree only when
every delta is present and no unplug fails with an error other than
not-found; otherwise they differ: the single-amphora revert swallows
every unplug error and always processes all `add_nics`, while the
multi-amphora revert swallows only not-found (any other unplug error
propagates) and raises on the first absent delta — its amphora-id log
dereference precedes the falsy-delta check — aborting all remaining
compensation. -/
theorem handleNetworkDelta_equiv {α : Type} (drv : HandleDriver)
    (amphora : Amphora) (aid : Nat) (d : Delta) (rest : List (Nat × Delta))
    (res : α) (deltas restR : List (Nat × Option Delta)) :
    (amphora.id = aid →
        handleNetworkDeltasExecute drv ((aid, d) :: rest)
          = ((handleNetworkDeltaExecute drv amphora d).1
                ++ (handleNetworkDeltasExecute drv rest).1,
             (handleNetworkDeltaExecute drv amphora d).2
                ++ (handleNetworkDeltasExecute drv rest).2))
    ∧ (handleNetworkDeltaRevert drv (.success res) (some d)).2 = false
    ∧ (handleNetworkDeltaRevert drv (.success res) (some d)).1
        = d.add_nics.map (fun nic => NCall.unplug d.compute_id nic.network_id)
    ∧ handleNetworkDeltasRevert drv (.success res) ((aid, none) :: restR)
        = ([], true)
    ∧ ((∀ p ∈ deltas, ∃ dd : Delta, p.2 = some dd ∧ ∀ nic ∈ dd.add_nics,
          drv.unplug_network dd.compute_id nic.network_id ≠ .otherError) →
        handleNetworkDeltasRevert drv (.success res) deltas
          = (deltas.flatMap
              (fun p => (handleNetworkDeltaRevert drv (.success res) p.2).1),
             false)) := by
  have hrevgo : ∀ (cid : Nat) (l : List Interface),
      handleDeltaRevertGo drv cid l
        = l.map fun nic => NCall.unplug cid nic.network_id := by
    intro cid l
    induction l with
    | nil => rfl
    | cons nic rst ih =>
      cases h : drv.unplug_network cid nic.network_id <;>
        simp [handleDeltaRevertGo, h, ih]
  have hinner : ∀ (cid : Nat) (l : List Interface),
      (∀ nic ∈ l, drv.unplug_network cid nic.network_id ≠ .otherError) →
      handleDeltasRevertInner drv cid l
        = (l.map fun nic => NCall.unplug cid nic.network_id, false) := by
    intro cid l
    induction l with
    | nil => intro _; rfl
    | cons nic rst ih =>
      intro h
      have hnic := h nic (by simp)
      have hrst := ih fun x hx => h x (by simp [hx])
      cases hu : drv.unplug_network cid nic.network_id
      · simp [handleDeltasRevertInner, hu, hrst]
      · simp [handleDeltasRevertInner, hu, hrst]
      · exact absurd hu hnic
  refine ⟨fun hid => ?_, rfl, hrevgo d.compute_id d.add_nics, rfl, fun h => ?_⟩
  · show ((aid, (handleDeltasAddGo drv d.compute_id d.add_nics).1) :: _, _) = _
    rw [handleDeltasAddGo_eq, handleDeltasDelGo_eq]
    simp [handleNetworkDeltaExecute, hid]
  · show handleDeltasRevertGo drv deltas = _
    induction deltas with
    | nil => rfl
    | cons p rst ih =>
      obtain ⟨dd, hp2, hno⟩ := h p (by simp)
      have hrst := ih fun x hx => h x (by simp [hx])
      obtain ⟨paid, pod⟩ := p
      simp only at hp2
      subst hp2
      simp [handleDeltasRevertGo, hinner _ _ hno, hrst,
        handleNetworkDeltaRevert, hrevgo]

/-- Witness for C8 amended: one map entry, backend unplug succeeding: the
multi-amphora revert makes exactly the single-amphora revert's calls and
does not raise. -/
theorem handleNetworkDelta_equiv_witness :
    handleNetworkDeltasRevert (α := Unit)
        ⟨fun _ _ => ⟨none, none⟩, fun _ => ⟨none, none, []⟩, fun _ => 0,
         fun _ => 0, fun _ _ => .ok⟩
        (.success ()) [(1, some ⟨1, 2, [⟨some 5, none⟩], []⟩)]
      = ([NCall.unplug 2 (some 5)], false) := by
  have h := (handleNetworkDelta_equiv (α := Unit)
    ⟨fun _ _ => ⟨none, none⟩, fun _ => ⟨none, none, []⟩, fun _ => 0,
     fun _ => 0, fun _ _ => .ok⟩
    ⟨1, 2, 3⟩ 1 ⟨1, 2, [⟨some 5, none⟩], []⟩ [] ()
    [(1, some ⟨1, 2, [⟨some 5, none⟩], []⟩)] []).2.2.2.2 (by decide)
  exact h.trans (by decide)

/-- With a backend that fails on every attempt, the retry loop from
attempt `k` (with `fuel = maxA + 1 - k` attempts remaining) reports
progress `j / maxA` and calls `delete_port` for every attempt `j` from `k`
to `maxA`, then runs the passive-failure path or raises. -/
theorem deletePortGo_allFail (df : Nat → Bool) (adf passive : Bool)
    (maxA : Nat) (hfail : ∀ j, df j = true) :
    ∀ fuel k, 1 ≤ fuel → k + fuel = maxA + 1 →
      deletePortGo df adf passive maxA k fuel
        = ((List.range' k fuel).flatMap
             (fun j => [DPEv.progress ((j : ℚ) / (maxA : ℚ)), DPEv.deleteCall])
            ++ (if passive then [DPEv.adminDownCall adf] else []),
           !passive) := by
  intro fuel
  induction fuel with
  | zero => intro k h0 _; omega
  | succ f ih =>
    intro k hf hsum
    by_cases hk : k = maxA
    · have hf0 : f = 0 := by omega
      subst hf0
      subst hk
      cases passive <;> simp [deletePortGo, hfail k, List.range']
    · have hf1 : 1 ≤ f := by omega
      have ihk := ih (k + 1) hf1 (by omega)
      simp [deletePortGo, hfail k, hk, ihk, List.range'_succ]

/-- Each per-attempt event block contains one `delete_port` call. -/
theorem deletePort_block_count (maxA : Nat) (l : List Nat) :
    ((l.flatMap fun j =>
        [DPEv.progress ((j : ℚ) / (maxA : ℚ)), DPEv.deleteCall]).count
      DPEv.deleteCall) = l.length := by
  induction l with
  | nil => rfl
  | cons a l ih => simp [List.count_append, List.count_cons, ih]

/-- The per-attempt event blocks contain no admin-down call. -/
theorem deletePort_block_no_adminDown (maxA : Nat) (l : List Nat) (b : Bool) :
    DPEv.adminDownCall b ∉ l.flatMap fun j =>
      [DPEv.progress ((j : ℚ) / (maxA : ℚ)), DPEv.deleteCall] := by
  simp [List.mem_flatMap]

/-- Every progress event reported by the retry loop from attempt `k` with
`fuel` attempts remaining carries the value `j / maxA` of some attempt
number `j` in range. -/
theorem deletePortGo_progress_mem (df : Nat → Bool) (adf passive : Bool)
    (maxA : Nat) :
    ∀ fuel k q, DPEv.progress q ∈ (deletePortGo df adf passive maxA k fuel).1 →
      ∃ j, k ≤ j ∧ j < k + fuel ∧ q = (j : ℚ) / (maxA : ℚ) := by
  intro fuel
  induction fuel with
  | zero => intro k q h; simp [deletePortGo] at h
  | succ f ih =>
    intro k q h
    by_cases h1 : df k = true
    · by_cases h2 : k = maxA
      · subst h2
        by_cases h3 : passive
        · simp [deletePortGo, h1, h3] at h
          exact ⟨k, le_refl k, by omega, h⟩
        · simp [deletePortGo, h1, h3] at h
          exact ⟨k, le_refl k, by omega, h⟩
      · simp [deletePortGo, h1, h2] at h
        rcases h with h | h
        · exact ⟨k, le_refl k, by omega, h⟩
        · obtain ⟨j, hj1, hj2, hj3⟩ := ih (k + 1) q h
          exact ⟨j, by omega, by omega, hj3⟩
    · simp [deletePortGo, h1] at h
      exact ⟨k, le_refl k, by omega, h⟩

/-- C3: the retryable port deletion: a null port id returns without any
backend call or progress report; with a backend failing on every attempt
and `passive_failure` false it raises after exhausting the `maxA`-attempt
budget and never calls admin-down; with `passive_failure` true it returns
without raising and calls admin-down exactly once (that call's own
failure `adf` is swallowed); and every progress report equals
`attempt / max_attempts`. -/
theorem deletePort_spec (df : Nat → Bool) (adf : Bool) (maxA : Nat)
    (pid : Nat) :
    (∀ passive, deletePortExecute df adf passive maxA none = ([], false))
    ∧ (1 ≤ maxA → (∀ j, df j = true) →
        (deletePortExecute df adf false maxA (some pid)).2 = true
        ∧ (∀ b, DPEv.adminDownCall b ∉
            (deletePortExecute df adf false maxA (some pid)).1)
        ∧ (deletePortExecute df adf false maxA (some pid)).1.count
            DPEv.deleteCall = maxA
        ∧ (∀ j, 1 ≤ j → j ≤ maxA →
            DPEv.progress ((j : ℚ) / (maxA : ℚ)) ∈
              (deletePortExecute df adf false maxA (some pid)).1))
    ∧ (1 ≤ maxA → (∀ j, df j = true) →
        (deletePortExecute df adf true maxA (some pid)).2 = false
        ∧ (deletePortExecute df adf true maxA (some pid)).1.count
            (DPEv.adminDownCall adf) = 1
        ∧ (deletePortExecute df adf true maxA (some pid)).1.count
            DPEv.deleteCall = maxA)
    ∧ (∀ passive q,
        DPEv.progress q ∈ (deletePortExecute df adf passive maxA (some pid)).1 →
        ∃ j, 1 ≤ j ∧ j ≤ maxA ∧ q = (j : ℚ) / (maxA : ℚ)) := by
  refine ⟨fun _ => rfl, fun hmax hfail => ?_, fun hmax hfail => ?_,
    fun passive q h => ?_⟩
  · have hall := deletePortGo_allFail df adf false maxA hfail maxA 1 hmax
      (by omega)
    have hex : deletePortExecute df adf false maxA (some pid)
        = deletePortGo df adf false maxA 1 maxA := rfl
    rw [hex, hall]
    refine ⟨rfl, fun b => ?_, ?_, fun j hj1 hj2 => ?_⟩
    · simp only [List.mem_append]
      intro hmem
      rcases hmem with hmem | hmem
      · exact deletePort_block_no_adminDown maxA _ b hmem
      · simp at hmem
    · simp [List.count_append, deletePort_block_count, List.length_range']
    · refine List.mem_append.mpr (Or.inl ?_)
      refine List.mem_flatMap.mpr ⟨j, List.mem_range'_1.mpr ⟨hj1, by omega⟩, ?_⟩
      simp
  · have hall := deletePortGo_allFail df adf true maxA hfail maxA 1 hmax
      (by omega)
    have hex : deletePortExecute df adf true maxA (some pid)
        = deletePortGo df adf true maxA 1 maxA := rfl
    rw [hex, hall]
    refine ⟨rfl, ?_, ?_⟩
    · have h0 : ((List.range' 1 maxA).flatMap fun j =>
          [DPEv.progress ((j : ℚ) / (maxA : ℚ)), DPEv.deleteCall]).count
          (DPEv.adminDownCall adf) = 0 :=
        List.count_eq_zero.mpr (deletePort_block_no_adminDown maxA _ adf)
      simp [List.count_append, h0, List.count_cons]
    · simp [List.count_append, deletePort_block_count, List.length_range',
        List.count_cons]
  · have hex : deletePortExecute df adf passive maxA (some pid)
        = deletePortGo df adf passive maxA 1 maxA := rfl
    rw [hex] at h
    obtain ⟨j, hj1, hj2, hj3⟩ := deletePortGo_progress_mem df adf passive
      maxA maxA 1 q h
    exact ⟨j, hj1, by omega, hj3⟩

/-- Witness for C3: a 2-attempt budget and an always-failing backend:
with `passive_failure` false the task raises; with it true the task
returns without raising. -/
theorem deletePort_spec_witness :
    (deletePortExecute (fun _ => true) false false 2 (some 0)).2 = true
    ∧ (deletePortExecute (fun _ => true) false true 2 (some 0)).2 = false :=
  ⟨((deletePort_spec (fun _ => true) false 2 0).2.1 (by omega)
      (fun _ => rfl)).1,
   ((deletePort_spec (fun _ => true) false 2 0).2.2.1 (by omega)
      (fun _ => rfl)).1⟩

end Octavia
